import Mathlib

/-!
Verification of the robot-Viz TOPP-RA trajectory planner.

This file gives a shallow embedding of the core of the repository:
`src/services/dynamics.ts` (simplified inverse dynamics and gravity model),
`src/services/toppra.ts` (the TOPP-RA time-optimal trajectory planner with
its linear fallback), and the Moving-state branch of the playback loop in
`src/App.tsx`.  JavaScript numbers are modelled by the type `F` below, which
is the real numbers extended with `nan`, `pinf` and `ninf` so that the
IEEE-754 special-value behaviour of the source (comparisons with NaN are
false, `Math.max`/`Math.min` propagate NaN, `0 * Infinity` is NaN, division
of a nonzero number by zero gives a signed infinity, and so on) is preserved;
finite-precision rounding is idealized away, as usual for such embeddings.

The per-joint friction estimator lives in `src/services/frictionModel.ts`,
which is not among the source files; it is modelled from the spec (§4.2)
below, and the planner definitions are parameterized by an arbitrary
friction function so that every theorem quantifies over all possible
instantiations of that missing module.
-/

noncomputable section

namespace RobotViz

/-- IEEE-754-style scalar: a real number, or one of the special values
NaN, +Infinity, -Infinity produced by JavaScript arithmetic. -/
inductive F where
  | nan : F
  | pinf : F
  | ninf : F
  | fin : ℝ → F
deriving DecidableEq

namespace F

/-- JavaScript unary minus. -/
def neg : F → F
  | nan => nan
  | pinf => ninf
  | ninf => pinf
  | fin x => fin (-x)

/-- JavaScript addition: NaN propagates, opposite infinities give NaN. -/
def add : F → F → F
  | nan, _ => nan
  | _, nan => nan
  | pinf, ninf => nan
  | ninf, pinf => nan
  | pinf, _ => pinf
  | _, pinf => pinf
  | ninf, _ => ninf
  | _, ninf => ninf
  | fin x, fin y => fin (x + y)

/-- JavaScript subtraction, `a - b = a + (-b)`. -/
def sub (a b : F) : F := add a (neg b)

/-- JavaScript multiplication: NaN propagates and `0 * Infinity` is NaN. -/
def mul : F → F → F
  | nan, _ => nan
  | _, nan => nan
  | pinf, pinf => pinf
  | pinf, ninf => ninf
  | ninf, pinf => ninf
  | ninf, ninf => pinf
  | pinf, fin y => if y = 0 then nan else if 0 < y then pinf else ninf
  | fin x, pinf => if x = 0 then nan else if 0 < x then pinf else ninf
  | ninf, fin y => if y = 0 then nan else if 0 < y then ninf else pinf
  | fin x, ninf => if x = 0 then nan else if 0 < x then ninf else pinf
  | fin x, fin y => fin (x * y)

/-- JavaScript division: NaN propagates, `Infinity / Infinity` and `0 / 0`
are NaN, a nonzero finite number divided by zero gives a signed infinity,
and a finite number divided by an infinity gives zero. -/
def div : F → F → F
  | nan, _ => nan
  | _, nan => nan
  | pinf, pinf => nan
  | pinf, ninf => nan
  | ninf, pinf => nan
  | ninf, ninf => nan
  | pinf, fin y => if 0 ≤ y then pinf else ninf
  | ninf, fin y => if 0 ≤ y then ninf else pinf
  | fin _, pinf => fin 0
  | fin _, ninf => fin 0
  | fin x, fin y =>
      if y = 0 then (if x = 0 then nan else if 0 < x then pinf else ninf)
      else fin (x / y)

/-- JavaScript `Math.sqrt`: NaN on negative inputs (and NaN), `Infinity`
on `Infinity`. -/
def sqrt : F → F
  | nan => nan
  | pinf => pinf
  | ninf => nan
  | fin x => if x < 0 then nan else fin (Real.sqrt x)

/-- JavaScript `Math.abs`. -/
def abs : F → F
  | nan => nan
  | pinf => pinf
  | ninf => pinf
  | fin x => fin |x|

/-- JavaScript `<` comparison as a boolean: any comparison with NaN is false. -/
def blt : F → F → Bool
  | nan, _ => false
  | _, nan => false
  | pinf, _ => false
  | ninf, ninf => false
  | ninf, _ => true
  | fin _, pinf => true
  | fin _, ninf => false
  | fin x, fin y => decide (x < y)

/-- JavaScript `<=` comparison as a boolean: any comparison with NaN is false. -/
def ble : F → F → Bool
  | nan, _ => false
  | _, nan => false
  | _, pinf => true
  | pinf, _ => false
  | ninf, _ => true
  | fin _, ninf => false
  | fin x, fin y => decide (x ≤ y)

/-- JavaScript `Math.max`: NaN if either argument is NaN. -/
def max : F → F → F
  | nan, _ => nan
  | _, nan => nan
  | pinf, _ => pinf
  | _, pinf => pinf
  | ninf, b => b
  | a, ninf => a
  | fin x, fin y => fin (Max.max x y)

/-- JavaScript `Math.min`: NaN if either argument is NaN. -/
def min : F → F → F
  | nan, _ => nan
  | _, nan => nan
  | ninf, _ => ninf
  | _, ninf => ninf
  | pinf, b => b
  | a, pinf => a
  | fin x, fin y => fin (Min.min x y)

/-- Strict order on JavaScript numbers as a proposition. -/
def Lt (a b : F) : Prop := blt a b = true

end F

/-- A joint state as in `src/types.ts`: angle (rad), velocity (rad/s),
acceleration (rad/s²) and torque (Nm), all finite numbers. -/
structure JointState where
  angle : ℝ
  velocity : ℝ
  acceleration : ℝ
  torque : ℝ

/-- Per-link dynamics parameters as in `src/types.ts`. -/
structure DynamicsParams where
  masses : Fin 6 → ℝ
  lengths : Fin 6 → ℝ
  com : Fin 6 → ℝ

/-- The fixed robot parameters from `src/services/dynamics.ts`. -/
def ROBOT_PARAMS : DynamicsParams :=
  { masses := ![5, 8, 6, 2, 1, 0.5]
    lengths := ![0.29, 0.27, 0.30, 0.10, 0.05, 0.05]
    com := ![0.15, 0.13, 0.15, 0.05, 0.02, 0.01] }

/-- The fixed torque limits from `src/services/dynamics.ts` (Nm). -/
def MAX_TORQUES : Fin 6 → ℝ := ![80, 80, 40, 20, 10, 10]

/-- Gravitational constant used by `dynamics.ts`. -/
def gravG : ℝ := 9.81

/-- `masses.reduce((a,b) => a+b, 0)` from the base-joint override in
`calculateInverseDynamics`. -/
def totalMass (params : DynamicsParams) : ℝ := ∑ i, params.masses i

/-- `calculateGravityTorques` from `src/services/dynamics.ts`: a fresh array
of six zeros receives gravity contributions at indices 1 (shoulder),
2 (elbow) and 4 (wrist pitch); every other entry stays 0. -/
def calculateGravityTorques (joints : Fin 6 → JointState)
    (params : DynamicsParams) : Fin 6 → ℝ := fun i =>
  if i = 1 then
    (params.masses 1 + params.masses 2 + params.masses 3) * gravG *
      params.com 1 * Real.cos ((joints 1).angle)
  else if i = 2 then
    (params.masses 2 + params.masses 3) * gravG * params.com 2 *
      Real.cos ((joints 1).angle + (joints 2).angle)
  else if i = 4 then
    params.masses 4 * gravG * params.com 4 *
      Real.cos ((joints 1).angle + (joints 2).angle + (joints 4).angle)
  else 0

/-- `calculateInverseDynamics` from `src/services/dynamics.ts`: gravity plus
an inertia term `(m·l² + (5−i)·0.5)·q̈` and a centrifugal drag term
`0.1·q̇·|q̇|` per joint, with the base joint (index 0) overridden afterwards
to `totalMass · 0.1 · q̈₀`. -/
def calculateInverseDynamics (joints : Fin 6 → JointState)
    (params : DynamicsParams) : Fin 6 → ℝ := fun i =>
  if i = 0 then totalMass params * 0.1 * (joints 0).acceleration
  else
    calculateGravityTorques joints params i +
      (params.masses i * (params.lengths i) ^ 2 + (5 - (i : ℝ)) * 0.5) *
        (joints i).acceleration +
      0.1 * (joints i).velocity * |(joints i).velocity|

/-- Logistic sigmoid, the hidden-layer activation of the friction network. -/
def sigmoid (x : ℝ) : ℝ := 1 / (1 + Real.exp (-x))

/-- Modelled from the spec: the parameter set of `calculateJointFriction` in
`src/services/frictionModel.ts`, which is not among the available source
files.  Per spec §4.2 the estimator normalizes velocity to a bounded input
and forward-propagates through one hidden layer of 15 sigmoid units and one
linear output unit, using per-joint weight/bias sets fixed at construction;
the concrete weight values are not given by the spec, so they are fields. -/
structure FrictionNetParams where
  normalize : ℝ → ℝ
  wIn : Fin 6 → Fin 15 → ℝ
  bIn : Fin 6 → Fin 15 → ℝ
  wOut : Fin 6 → Fin 15 → ℝ
  bOut : Fin 6 → ℝ

/-- Modelled from the spec: `calculateJointFriction(jointIndex, velocity)`
of the missing `src/services/frictionModel.ts`, as described in spec §4.2:
a pure feed-forward pass through the 15-unit sigmoid hidden layer and the
linear output unit. -/
def calculateJointFriction (P : FrictionNetParams) (i : Fin 6) (v : ℝ) : ℝ :=
  (∑ j, P.wOut i j * sigmoid (P.wIn i j * P.normalize v + P.bIn i j)) + P.bOut i

/-- The type of friction functions the planner consumes: joint index and
implied joint velocity (a JavaScript number) to friction torque.  The
planner definitions below are parameterized by such a function; any
instantiation of the missing friction module gives one. -/
abbrev FricFun := Fin 6 → F → F

/-- A friction network lifted to JavaScript numbers: on a finite velocity it
evaluates the network, on NaN or an infinity the result is unspecified by
the spec and is modelled as NaN. -/
def fricOfNet (P : FrictionNetParams) : FricFun := fun i v =>
  match v with
  | F.fin x => F.fin (calculateJointFriction P i x)
  | _ => F.nan

/-! ### The TOPP-RA planner, `src/services/toppra.ts` -/

/-- `N_GRID = 200` from `toppra.ts`. -/
def N_GRID : ℕ := 200

/-- `PLAYBACK_SPEED_FACTOR = 1.0` from `toppra.ts`. -/
def PLAYBACK_SPEED_FACTOR : ℝ := 1.0

/-- `ds = 1.0 / N_GRID` from the integration passes. -/
def dsGrid : ℝ := 1.0 / (N_GRID : ℝ)

/-- A joint entry of an emitted trajectory frame.  Angles are produced by
finite arithmetic on the finite inputs, hence real; velocity, acceleration
and torque are JavaScript numbers computed from the solver state. -/
structure OutJoint where
  angle : ℝ
  velocity : F
  acceleration : F
  torque : F

/-- One trajectory sample: six joint entries plus the absolute timestamp
attached as the `time` field in the source. -/
structure Frame where
  joints : Fin 6 → OutJoint
  time : F

/-- The planner result: the sample list and the total duration. -/
structure Traj where
  points : List Frame
  duration : F

/-- `startq` in `generateTimeOptimalTrajectory`. -/
def startq (st : Fin 6 → JointState) : Fin 6 → ℝ := fun i => (st i).angle

/-- `deltaq = endq - startq` in `generateTimeOptimalTrajectory`. -/
def deltaq (st en : Fin 6 → JointState) : Fin 6 → ℝ := fun i =>
  (en i).angle - (st i).angle

/-- `dist = sqrt(deltaq.reduce((a,b) => a + b*b, 0))`, the Euclidean length
of the joint-space move. -/
def moveDist (st en : Fin 6 → JointState) : ℝ :=
  Real.sqrt (∑ i, (deltaq st en i) ^ 2)

/-- The frame pushed by iteration `i` of the `generateLinearFallback` loop:
linear angle interpolation at `t = i / steps`, zero velocity, acceleration
and torque, and the absolute timestamp `t * duration`. -/
def fallbackFrame (st en : Fin 6 → JointState) (i : ℕ) : Frame :=
  { joints := fun j =>
      { angle := (st j).angle + ((en j).angle - (st j).angle) * ((i : ℝ) / 60)
        velocity := F.fin 0
        acceleration := F.fin 0
        torque := F.fin 0 }
    time := F.fin (((i : ℝ) / 60) * 3.0) }

/-- `generateLinearFallback` from `toppra.ts`: 61 samples (steps 0..60) of
linear angle interpolation over a fixed 3.0 s duration, with zero velocity,
acceleration and torque and evenly spaced timestamps `t * duration`. -/
def generateLinearFallback (st en : Fin 6 → JointState) : Traj :=
  { points := (List.range 61).map (fallbackFrame st en)
    duration := F.fin 3.0 }

/-- The path point `q_curr = startq + s * deltaq` at grid index `k`
(`s = k / N_GRID`). -/
def qCurr (st en : Fin 6 → JointState) (k : ℕ) : Fin 6 → ℝ := fun i =>
  startq st i + ((k : ℝ) / (N_GRID : ℝ)) * deltaq st en i

/-- The gravity coefficient `C(s)`: inverse-dynamics gravity at `q_curr`
with zero velocity and acceleration. -/
def Ccoef (st en : Fin 6 → JointState) (k : ℕ) : Fin 6 → ℝ :=
  calculateGravityTorques
    (fun i => { angle := qCurr st en k i, velocity := 0, acceleration := 0, torque := 0 })
    ROBOT_PARAMS

/-- The inertia coefficient `A(s)`: probe `calculateInverseDynamics` with
acceleration `deltaq` and zero velocity, minus `C(s)`. -/
def Acoef (st en : Fin 6 → JointState) (k : ℕ) : Fin 6 → ℝ := fun i =>
  calculateInverseDynamics
    (fun j => { angle := qCurr st en k j, velocity := 0,
                acceleration := deltaq st en j, torque := 0 })
    ROBOT_PARAMS i - Ccoef st en k i

/-- The velocity-coupling coefficient `B(s)`: probe `calculateInverseDynamics`
with velocity `deltaq` and zero acceleration, minus `C(s)`. -/
def Bcoef (st en : Fin 6 → JointState) (k : ℕ) : Fin 6 → ℝ := fun i =>
  calculateInverseDynamics
    (fun j => { angle := qCurr st en k j, velocity := deltaq st en j,
                acceleration := 0, torque := 0 })
    ROBOT_PARAMS i - Ccoef st en k i

/-- One iteration of the per-joint loop computing `max_sd_sq` in the MVC
pass of `toppra.ts`: for `b > 0` the bound `(t_lim - c) / b` applies (with
an infeasible joint resetting the accumulator to 0), for `b < 0` the bound
`(-t_lim - c) / b` applies likewise, and a joint with `b = 0` leaves the
accumulator unchanged. -/
def mvcCodeStep (tl b c : ℝ) (acc : F) : F :=
  if 0 < b then
    (if tl - c < 0 then F.fin 0 else F.min acc (F.fin ((tl - c) / b)))
  else if b < 0 then
    (if 0 < -tl - c then F.fin 0 else F.min acc (F.fin ((-tl - c) / b)))
  else acc

/-- `max_sd_sq` at grid index `k`: the per-joint loop folded from the
initial value `Infinity`. -/
def maxSdSq (st en : Fin 6 → JointState) (k : ℕ) : F :=
  (List.finRange 6).foldl
    (fun acc i => mvcCodeStep (MAX_TORQUES i) (Bcoef st en k i) (Ccoef st en k i) acc)
    F.pinf

/-- `s_dot_limit[k] = sqrt(max(0, max_sd_sq))` before the endpoint
overwrite. -/
def sdLimitRaw (st en : Fin 6 → JointState) (k : ℕ) : F :=
  F.sqrt (F.max (F.fin 0) (maxSdSq st en k))

/-- The maximum-velocity curve `s_dot_limit` with both endpoints forced
to 0 as in `toppra.ts`. -/
def sdLimit (st en : Fin 6 → JointState) (k : ℕ) : F :=
  if k = 0 ∨ k = N_GRID then F.fin 0 else sdLimitRaw st en k

/-- The joint-wise maximum feasible `ṡ²` under the static box constraint
`-T_max ≤ B·ṡ² + C ≤ T_max`, with the `B>0`, `B<0` and `B≈0` cases handled
separately (an infeasible joint contributes 0 and a joint with `B = 0`
contributes no constraint), as the spec states the MVC pass. -/
def mvcJointMax (tl b c : ℝ) : F :=
  if 0 < b then F.fin (if tl - c < 0 then 0 else (tl - c) / b)
  else if b < 0 then F.fin (if 0 < -tl - c then 0 else (-tl - c) / b)
  else F.pinf

/-- The minimum over the six joints of `mvcJointMax`, the spec's reading of
`max_sd_sq`. -/
def mvcSpecMin (st en : Fin 6 → JointState) (k : ℕ) : F :=
  (List.finRange 6).foldl
    (fun acc i =>
      F.min acc (mvcJointMax (MAX_TORQUES i) (Bcoef st en k i) (Ccoef st en k i)))
    F.pinf

/-- One iteration of the per-joint loop of `getAccBounds` in `toppra.ts`.
The accumulator is `some (u_min, u_max)`, or `none` once a degenerate joint
(`|a| < 1e-5`) has hit the `return null` feasibility check. -/
def accBoundsStep (fric : FricFun) (st en : Fin 6 → JointState) (k : ℕ)
    (sdot : F) (acc : Option (F × F)) (i : Fin 6) : Option (F × F) :=
  match acc with
  | none => none
  | some (umin, umax) =>
    let a := Acoef st en k i
    let b := Bcoef st en k i
    let c := Ccoef st en k i
    let sdsq := F.mul sdot sdot
    let vel := F.mul sdot (F.fin (deltaq st en i))
    let f := fric i vel
    let rigid := F.add (F.mul (F.fin b) sdsq) (F.fin c)
    let bias := F.add rigid f
    let lower := F.sub (F.fin (-(MAX_TORQUES i))) bias
    let upper := F.sub (F.fin (MAX_TORQUES i)) bias
    if |a| < 0.00001 then
      (if F.blt (F.fin 0) lower || F.blt upper (F.fin 0) then none
       else some (umin, umax))
    else if 0 < a then
      some (F.max umin (F.div lower (F.fin a)), F.min umax (F.div upper (F.fin a)))
    else
      some (F.max umin (F.div upper (F.fin a)), F.min umax (F.div lower (F.fin a)))

/-- `getAccBounds(k, s_dot)` from `toppra.ts`: intersect the six per-joint
half-planes starting from `(-Infinity, Infinity)`, returning `null` when a
degenerate joint is infeasible or when `u_min > u_max`. -/
def getAccBounds (fric : FricFun) (st en : Fin 6 → JointState) (k : ℕ)
    (sdot : F) : Option (F × F) :=
  match (List.finRange 6).foldl (accBoundsStep fric st en k sdot)
      (some (F.ninf, F.pinf)) with
  | none => none
  | some (umin, umax) => if F.blt umax umin then none else some (umin, umax)

/-- The backward pass of `toppra.ts` counted from the path end:
`betaAux m = beta_curve[N_GRID - m]`, starting from `beta_curve[N_GRID] = 0`
and back-integrating `v² = v_next² - 2·bounds.min·ds` clamped to the static
limit curve, with an infeasible bound forcing 0. -/
def betaAux (fric : FricFun) (st en : Fin 6 → JointState) : ℕ → F
  | 0 => F.fin 0
  | m + 1 =>
    let k := N_GRID - (m + 1)
    let sdn := F.min (betaAux fric st en m) (sdLimit st en (k + 1))
    match getAccBounds fric st en (k + 1) sdn with
    | none => F.fin 0
    | some (umin, _) =>
      F.min
        (F.sqrt (F.max (F.fin 0)
          (F.sub (F.mul sdn sdn) (F.mul (F.mul (F.fin 2) umin) (F.fin dsGrid)))))
        (sdLimit st en k)

/-- `beta_curve[k]` from the backward pass. -/
def betaCurve (fric : FricFun) (st en : Fin 6 → JointState) (k : ℕ) : F :=
  betaAux fric st en (N_GRID - k)

/-- One step of the forward pass of `toppra.ts` at grid segment `k` with
current velocity `v`: the greedy acceleration `bounds.max`, clipped to
`(beta[k+1]² - v²) / (2·ds)` when the projected next squared velocity would
exceed `beta[k+1]²`, or 0 when the bounds are infeasible.  Returns the
recorded raw acceleration and the re-integrated next velocity
`sqrt(max(0, v² + 2·s_ddot·ds))`. -/
def fwdStep (fric : FricFun) (st en : Fin 6 → JointState) (k : ℕ) (v : F) :
    F × F :=
  let sdd :=
    match getAccBounds fric st en k v with
    | none => F.fin 0
    | some (_, umax) =>
      let maxNextSq := F.mul (betaCurve fric st en (k + 1)) (betaCurve fric st en (k + 1))
      let projected := F.add (F.mul v v) (F.mul (F.mul (F.fin 2) umax) (F.fin dsGrid))
      if F.blt maxNextSq projected then
        F.div (F.sub maxNextSq (F.mul v v)) (F.fin (2 * dsGrid))
      else umax
  (sdd, F.sqrt (F.max (F.fin 0)
    (F.add (F.mul v v) (F.mul (F.mul (F.fin 2) sdd) (F.fin dsGrid)))))

/-- `s_dot_curr` entering forward-pass step `k` (so `fwdV 0 = 0` and
`fwdV (k+1)` is the velocity after step `k`). -/
def fwdV (fric : FricFun) (st en : Fin 6 → JointState) : ℕ → F
  | 0 => F.fin 0
  | k + 1 => (fwdStep fric st en k (fwdV fric st en k)).2

/-- `raw_s_ddot[k]` recorded by the forward pass. -/
def rawSdd (fric : FricFun) (st en : Fin 6 → JointState) (k : ℕ) : F :=
  (fwdStep fric st en k (fwdV fric st en k)).1

/-- The list of valid window indices `k + w`, `w = -10..10`, clipped to
`[0, N_GRID)`, used by the smoothing pass. -/
def smoothWindow (k : ℕ) : List ℕ :=
  (List.range 21).filterMap (fun (o : ℕ) =>
    if 0 ≤ (k : ℤ) + ((o : ℤ) - 10) ∧ (k : ℤ) + ((o : ℤ) - 10) < (N_GRID : ℤ)
    then some ((k : ℤ) + ((o : ℤ) - 10)).toNat else none)

/-- `smooth_s_ddot[k]`: the centered moving average of `raw_s_ddot` over the
clipped window, with the deadband zeroing magnitudes below 0.5. -/
def smoothSdd (fric : FricFun) (st en : Fin 6 → JointState) (k : ℕ) : F :=
  let idxs := smoothWindow k
  let sum := idxs.foldl (fun acc j => F.add acc (rawSdd fric st en j)) (F.fin 0)
  let avg := F.div sum (F.fin (idxs.length : ℝ))
  if F.blt (F.abs avg) (F.fin 0.5) then F.fin 0 else avg

/-- The time increment of one final-integration step of `toppra.ts`, given
the average velocity `v_avg` of the segment: `ds / v_avg` when
`v_avg > 1e-4`, else the fixed fallback `0.01`; scaled by
`PLAYBACK_SPEED_FACTOR` and clamped below by `0.0001`. -/
def stepDt (vavg : F) : F :=
  F.max
    (F.mul
      (if F.blt (F.fin 0.0001) vavg then F.div (F.fin dsGrid) vavg else F.fin 0.01)
      (F.fin PLAYBACK_SPEED_FACTOR))
    (F.fin 0.0001)

/-- One step of the final time-domain integration: re-integrate the velocity
from the smoothed acceleration and accumulate absolute time. -/
def integStep (fric : FricFun) (st en : Fin 6 → JointState) (k : ℕ)
    (s : F × F) : F × F :=
  let t := s.1
  let v := s.2
  let sdd := smoothSdd fric st en k
  let vn := F.sqrt (F.max (F.fin 0)
    (F.add (F.mul v v) (F.mul (F.mul (F.fin 2) sdd) (F.fin dsGrid))))
  let vavg := F.div (F.add v vn) (F.fin 2)
  (F.add t (stepDt vavg), vn)

/-- `(t_curr, s_dot_curr)` after `k` final-integration steps, starting from
`(0, 0)`. -/
def integState (fric : FricFun) (st en : Fin 6 → JointState) : ℕ → F × F
  | 0 => (F.fin 0, F.fin 0)
  | k + 1 => integStep fric st en k (integState fric st en k)

/-- The start frame pushed before the integration loop: start angles, zero
velocity, acceleration and torque, timestamp 0. -/
def startFrame (st : Fin 6 → JointState) : Frame :=
  { joints := fun i =>
      { angle := startq st i, velocity := F.fin 0,
        acceleration := F.fin 0, torque := F.fin 0 }
    time := F.fin 0 }

/-- The frame pushed by final-integration step `k` (sample index `k + 1`):
angles at `s = (k+1)/N_GRID`, velocity `s_dot_next · deltaq`, acceleration
`smooth_s_ddot[k] · deltaq`, zero torque, and the accumulated timestamp. -/
def solverFrame (fric : FricFun) (st en : Fin 6 → JointState) (k : ℕ) : Frame :=
  { joints := fun i =>
      { angle := startq st i + (((k + 1 : ℕ) : ℝ) / (N_GRID : ℝ)) * deltaq st en i
        velocity := F.mul (integState fric st en (k + 1)).2 (F.fin (deltaq st en i))
        acceleration := F.mul (smoothSdd fric st en k) (F.fin (deltaq st en i))
        torque := F.fin 0 }
    time := (integState fric st en (k + 1)).1 }

/-- The trajectory produced by the solver body when the move is not
degenerate: the start frame followed by the 200 integrated frames, with the
final accumulated time as duration. -/
def solverTraj (fric : FricFun) (st en : Fin 6 → JointState) : Traj :=
  { points := startFrame st :: (List.range N_GRID).map (solverFrame fric st en)
    duration := (integState fric st en N_GRID).1 }

/-- The body of the `try` block of `generateTimeOptimalTrajectory`: the
degenerate-move check followed by the solver passes.  No statement of the
body can throw on finite inputs, so the body always produces a value;
the `Except` codomain records the try/catch structure of the source. -/
def planBody (fric : FricFun) (st en : Fin 6 → JointState) : Except Unit Traj :=
  Except.ok
    (if moveDist st en < 0.001 then generateLinearFallback st en
     else solverTraj fric st en)

/-- The `try { ... } catch { return generateLinearFallback(...) }` wrapper:
an exceptional body result is converted to the handler value. -/
def tryCatchTraj (body : Except Unit Traj) (handler : Traj) : Traj :=
  match body with
  | Except.ok t => t
  | Except.error _ => handler

/-- `generateTimeOptimalTrajectory` from `toppra.ts`. -/
def generateTimeOptimalTrajectory (fric : FricFun) (st en : Fin 6 → JointState) :
    Traj :=
  tryCatchTraj (planBody fric st en) (generateLinearFallback st en)

/-- The ambient sources of nondeterminism a browser offers (`Math.random`,
`Date.now`).  `toppra.ts` references neither. -/
structure Env where
  random : ℕ → ℝ
  now : ℝ

/-- The planner as invoked in a runtime environment: the body of
`generateTimeOptimalTrajectory` contains no reference to the environment's
random source or clock, which this definition makes explicit. -/
def generateTimeOptimalTrajectoryEnv (_env : Env) (fric : FricFun)
    (st en : Fin 6 → JointState) : Traj :=
  generateTimeOptimalTrajectory fric st en

/-! ### The playback controller's Moving state, `src/App.tsx` -/

/-- The Moving-state branch of `loopCallback` in `src/App.tsx` for TOPP-RA
mode: given the active trajectory, the elapsed move time and the current
clock reading, emit the first sample whose timestamp is `>= moveTime`
(`findIndex`), or, past the end, emit the last sample and record the
dwell-start time (the transition to Dwelling).  The first component is the
emitted sample (`none` only in the guarded empty-trajectory case, where the
source replans and returns), the second the new `dwellStartTime`. -/
def movingStep (traj : List Frame) (moveTime now : ℝ) :
    Option Frame × Option ℝ :=
  if traj.isEmpty then (none, none)
  else
    match traj.find? (fun f => F.ble (F.fin moveTime) f.time) with
    | some f => (some f, none)
    | none => (traj.getLast?, some now)

/-! ### Properties stated from the spec's words -/

/-- The spec's description of the Linear Fallback output (§4.3 step 9 and
§8): exactly the fallback trajectory, with 61 samples, total duration 3.0 s,
timestamps evenly spaced by 3/60 s starting at 0, angles interpolating
linearly from start to end, and zero velocity, acceleration and torque on
every sample. -/
def linearFallbackExact (st en : Fin 6 → JointState) (T : Traj) : Prop :=
  T = generateLinearFallback st en ∧
  T.points.length = 61 ∧
  T.duration = F.fin 3 ∧
  ∀ i : ℕ, i < 61 →
    ∃ f, T.points.get? i = some f ∧
      f.time = F.fin ((i : ℝ) * (3 / 60)) ∧
      (∀ j, (f.joints j).angle =
        (st j).angle + ((en j).angle - (st j).angle) * ((i : ℝ) / 60)) ∧
      (∀ j, (f.joints j).velocity = F.fin 0) ∧
      (∀ j, (f.joints j).acceleration = F.fin 0) ∧
      (∀ j, (f.joints j).torque = F.fin 0)

/-- The spec's description of the Moving state of the playback controller
(§4.4): past the end of the trajectory the controller emits the held final
sample and transitions to Dwelling recording the dwell-start time, and the
emitted sample is only ever the first sample whose timestamp reaches the
elapsed move time or the held final sample. -/
def movingStateContract (traj : List Frame) (moveTime now : ℝ) : Prop :=
  movingStep traj moveTime now = (traj.getLast?, some now) ∧
  ∀ mt : ℝ, ∀ f : Frame, ∀ dw : Option ℝ,
    movingStep traj mt now = (some f, dw) →
    (traj.find? (fun fr => F.ble (F.fin mt) fr.time) = some f ∧ dw = none) ∨
    (traj.getLast? = some f ∧ dw = some now)

/-- A concrete one-sample trajectory used to instantiate the playback
contract at an explicit input. -/
def probeFrame : Frame :=
  { joints := fun _ =>
      { angle := 0, velocity := F.fin 0, acceleration := F.fin 0, torque := F.fin 0 }
    time := F.fin 0 }

end RobotViz

namespace RobotViz

/-! ### Basic lemmas about the JavaScript-number model -/

theorem F.lt_fin_fin {x y : ℝ} : F.Lt (F.fin x) (F.fin y) ↔ x < y := by
  simp [F.Lt, F.blt]

theorem F.lt_trans {a b c : F} (h1 : F.Lt a b) (h2 : F.Lt b c) : F.Lt a c := by
  cases a <;> cases b <;> cases c <;>
    simp_all [F.Lt, F.blt] <;> exact h1.trans h2

instance : IsTrans F F.Lt := ⟨fun _ _ _ => F.lt_trans⟩

theorem F.add_fin_fin (x y : ℝ) : F.add (F.fin x) (F.fin y) = F.fin (x + y) := rfl

/-! ### C1: the planner's total contract -/

/-- C1: for every pair of 6-joint states (and every instantiation of the
friction module), `generateTimeOptimalTrajectory` returns a value to its
caller — either the solver's trajectory or the linear fallback — and the
`catch` wrapper converts any exceptional body outcome to the linear
fallback. -/
theorem c1_planner_never_raises (fric : FricFun) (st en : Fin 6 → JointState) :
    (generateTimeOptimalTrajectory fric st en = solverTraj fric st en ∨
      generateTimeOptimalTrajectory fric st en = generateLinearFallback st en) ∧
    (∀ err : Unit, tryCatchTraj (Except.error err) (generateLinearFallback st en) =
      generateLinearFallback st en) := by
  refine ⟨?_, fun _ => rfl⟩
  by_cases h : moveDist st en < 0.001
  · right
    simp [generateTimeOptimalTrajectory, planBody, tryCatchTraj, h]
  · left
    simp [generateTimeOptimalTrajectory, planBody, tryCatchTraj, h]

/-! ### C4: determinism -/

/-- C4: the planner's output does not depend on the runtime environment's
random source or clock; two invocations with identical start and end states
(and the same friction module) produce identical trajectories. -/
theorem c4_planner_deterministic (env1 env2 : Env) (fric : FricFun)
    (st en : Fin 6 → JointState) :
    generateTimeOptimalTrajectoryEnv env1 fric st en =
      generateTimeOptimalTrajectoryEnv env2 fric st en := rfl

/-! ### C8: the base-joint override in the dynamics model -/

/-- C8: `calculateInverseDynamics` returns at index 0 exactly
`(sum of all link masses) * 0.1 * acceleration[0]` — an expression in the
total mass and the base joint's own acceleration only, hence independent of
every angle and velocity — and `calculateGravityTorques` returns 0 at
index 0. -/
theorem c8_base_joint_torque (params : DynamicsParams)
    (joints : Fin 6 → JointState) :
    calculateInverseDynamics joints params 0 =
      (∑ i, params.masses i) * 0.1 * (joints 0).acceleration ∧
    calculateGravityTorques joints params 0 = 0 := by
  constructor
  · simp [calculateInverseDynamics, totalMass]
  · simp [calculateGravityTorques]

/-! ### Timestamp infrastructure for the final integration -/

theorem stepDt_fin (w : F) : ∃ d : ℝ, 0.0001 ≤ d ∧ stepDt w = F.fin d := by
  cases w with
  | nan =>
    exact ⟨Max.max (0.01 * PLAYBACK_SPEED_FACTOR) 0.0001, le_max_right _ _,
      by simp [stepDt, F.blt, F.mul, F.max]⟩
  | pinf =>
    exact ⟨Max.max (0 * PLAYBACK_SPEED_FACTOR) 0.0001, le_max_right _ _,
      by simp [stepDt, F.blt, F.div, F.mul, F.max]⟩
  | ninf =>
    exact ⟨Max.max (0.01 * PLAYBACK_SPEED_FACTOR) 0.0001, le_max_right _ _,
      by simp [stepDt, F.blt, F.mul, F.max]⟩
  | fin x =>
    by_cases h : (0.0001 : ℝ) < x
    · have hx : x ≠ 0 := ne_of_gt (lt_trans (by norm_num) h)
      exact ⟨Max.max (dsGrid / x * PLAYBACK_SPEED_FACTOR) 0.0001, le_max_right _ _,
        by simp [stepDt, F.blt, h, F.div, hx, F.mul, F.max]⟩
    · exact ⟨Max.max (0.01 * PLAYBACK_SPEED_FACTOR) 0.0001, le_max_right _ _,
        by simp [stepDt, F.blt, h, F.mul, F.max]⟩

theorem integStep_fst (fric : FricFun) (st en : Fin 6 → JointState) (k : ℕ)
    (s : F × F) : ∃ w, (integStep fric st en k s).1 = F.add s.1 (stepDt w) :=
  ⟨_, rfl⟩

theorem integState_fst_fin (fric : FricFun) (st en : Fin 6 → JointState)
    (k : ℕ) : ∃ τ : ℝ, (integState fric st en k).1 = F.fin τ := by
  induction k with
  | zero => exact ⟨0, rfl⟩
  | succ k ih =>
    obtain ⟨τ, hτ⟩ := ih
    obtain ⟨w, hw⟩ := integStep_fst fric st en k (integState fric st en k)
    obtain ⟨d, _, hd⟩ := stepDt_fin w
    refine ⟨τ + d, ?_⟩
    simp only [integState]
    rw [hw, hτ, hd, F.add_fin_fin]

theorem integState_time_lt (fric : FricFun) (st en : Fin 6 → JointState)
    (k : ℕ) :
    F.Lt (integState fric st en k).1 (integState fric st en (k + 1)).1 := by
  obtain ⟨τ, hτ⟩ := integState_fst_fin fric st en k
  obtain ⟨w, hw⟩ := integStep_fst fric st en k (integState fric st en k)
  obtain ⟨d, hd0, hd⟩ := stepDt_fin w
  have : integState fric st en (k + 1) = integStep fric st en k (integState fric st en k) := by
    simp only [integState]
  rw [this, hw, hτ, hd, F.add_fin_fin, F.lt_fin_fin]
  linarith

theorem solver_points_time_chain (fric : FricFun) (st en : Fin 6 → JointState) :
    List.Chain' F.Lt ((solverTraj fric st en).points.map (fun f => f.time)) := by
  have h200 : N_GRID = 199 + 1 := rfl
  have hmain : List.Chain' F.Lt
      (((List.range N_GRID).map (solverFrame fric st en)).map (fun f => f.time)) := by
    rw [List.map_map, List.chain'_map, h200, List.chain'_range_succ]
    intro m _
    exact integState_time_lt fric st en (m + 1)
  simp only [solverTraj, List.map_cons]
  apply List.chain'_cons'.mpr
  refine ⟨?_, hmain⟩
  intro y hy
  rw [List.map_map, h200, List.range_succ_eq_map, List.map_cons, List.head?_cons,
    Option.mem_def, Option.some_inj] at hy
  subst hy
  exact integState_time_lt fric st en 0

theorem fallback_points_time_chain (st en : Fin 6 → JointState) :
    List.Chain' F.Lt ((generateLinearFallback st en).points.map (fun f => f.time)) := by
  simp only [generateLinearFallback]
  rw [List.map_map, List.chain'_map]
  have h61 : (61 : ℕ) = 60 + 1 := rfl
  rw [h61, List.chain'_range_succ]
  intro m _
  show F.Lt (fallbackFrame st en m).time (fallbackFrame st en (m + 1)).time
  simp only [fallbackFrame]
  rw [F.lt_fin_fin]
  push_cast
  linarith

/-! ### C2: timestamp and first-sample invariants -/

/-- C2: on both the solver path and the fallback path, the returned
trajectory has strictly increasing timestamps, its first sample has
timestamp 0, and the first sample carries the start angles with zero
velocity and acceleration. -/
theorem c2_trajectory_start_invariants (fric : FricFun)
    (st en : Fin 6 → JointState) :
    List.Pairwise F.Lt
      ((generateTimeOptimalTrajectory fric st en).points.map (fun f => f.time)) ∧
    ∃ f0, (generateTimeOptimalTrajectory fric st en).points.head? = some f0 ∧
      f0.time = F.fin 0 ∧
      (∀ j, (f0.joints j).angle = (st j).angle) ∧
      (∀ j, (f0.joints j).velocity = F.fin 0) ∧
      (∀ j, (f0.joints j).acceleration = F.fin 0) := by
  by_cases h : moveDist st en < 0.001
  · have hgen : generateTimeOptimalTrajectory fric st en = generateLinearFallback st en := by
      simp [generateTimeOptimalTrajectory, planBody, tryCatchTraj, h]
    rw [hgen]
    constructor
    · exact List.chain'_iff_pairwise.mp (fallback_points_time_chain st en)
    · have h61 : (61 : ℕ) = 60 + 1 := rfl
      refine ⟨fallbackFrame st en 0, ?_, ?_, ?_, ?_, ?_⟩
      · simp only [generateLinearFallback, h61, List.range_succ_eq_map,
          List.map_cons, List.head?_cons]
      · show F.fin (((0 : ℕ) : ℝ) / 60 * 3.0) = F.fin 0
        norm_num
      · intro j
        show (st j).angle + ((en j).angle - (st j).angle) * (((0 : ℕ) : ℝ) / 60) = (st j).angle
        norm_num
      · intro j; rfl
      · intro j; rfl
  · have hgen : generateTimeOptimalTrajectory fric st en = solverTraj fric st en := by
      simp [generateTimeOptimalTrajectory, planBody, tryCatchTraj, h]
    rw [hgen]
    constructor
    · exact List.chain'_iff_pairwise.mp (solver_points_time_chain fric st en)
    · exact ⟨startFrame st, rfl, rfl, fun _ => rfl, fun _ => rfl, fun _ => rfl⟩

theorem getLast?_map_range {α : Type _} (f : ℕ → α) (n : ℕ) :
    ((List.range (n + 1)).map f).getLast? = some (f n) := by
  rw [List.range_succ, List.map_append, List.map_cons, List.map_nil,
    List.getLast?_concat]

theorem getLast?_cons_map_range {α : Type _} (a : α) (f : ℕ → α) (n : ℕ) :
    (a :: (List.range (n + 1)).map f).getLast? = some (f n) := by
  rw [List.range_succ, List.map_append, List.map_cons, List.map_nil,
    ← List.cons_append, List.getLast?_concat]

/-! ### C10: the duration equals the final timestamp -/

/-- C10: on both the solver path and the fallback path, the duration scalar
returned by the planner equals the timestamp of the last emitted sample. -/
theorem c10_duration_is_last_timestamp (fric : FricFun)
    (st en : Fin 6 → JointState) :
    ∃ last, (generateTimeOptimalTrajectory fric st en).points.getLast? = some last ∧
      last.time = (generateTimeOptimalTrajectory fric st en).duration := by
  by_cases h : moveDist st en < 0.001
  · have hgen : generateTimeOptimalTrajectory fric st en = generateLinearFallback st en := by
      simp [generateTimeOptimalTrajectory, planBody, tryCatchTraj, h]
    rw [hgen]
    have h61 : (61 : ℕ) = 60 + 1 := rfl
    refine ⟨fallbackFrame st en 60, ?_, ?_⟩
    · show ((List.range 61).map (fallbackFrame st en)).getLast? = _
      rw [h61]
      exact getLast?_map_range _ 60
    · show F.fin (((60 : ℕ) : ℝ) / 60 * 3.0) = F.fin 3.0
      norm_num
  · have hgen : generateTimeOptimalTrajectory fric st en = solverTraj fric st en := by
      simp [generateTimeOptimalTrajectory, planBody, tryCatchTraj, h]
    rw [hgen]
    have h200 : N_GRID = 199 + 1 := rfl
    refine ⟨solverFrame fric st en 199, ?_, ?_⟩
    · show (startFrame st :: (List.range N_GRID).map (solverFrame fric st en)).getLast? = _
      rw [h200]
      exact getLast?_cons_map_range _ _ 199
    · rfl


/-! ### C3: degenerate moves return exactly the linear fallback -/

/-- C3: when the joint-space distance between start and end is below
0.001 rad, the planner returns exactly the Linear Fallback: 61 linearly
interpolated samples with zero velocity/acceleration/torque, timestamps
evenly spaced by 0.05 s from 0 to 3.0 s, and total duration 3.0 s. -/
theorem c3_degenerate_move_fallback (fric : FricFun)
    (st en : Fin 6 → JointState) (h : moveDist st en < 0.001) :
    linearFallbackExact st en (generateTimeOptimalTrajectory fric st en) := by
  have hgen : generateTimeOptimalTrajectory fric st en = generateLinearFallback st en := by
    simp [generateTimeOptimalTrajectory, planBody, tryCatchTraj, h]
  rw [linearFallbackExact, hgen]
  refine ⟨rfl, ?_, ?_, ?_⟩
  · simp [generateLinearFallback]
  · show F.fin 3.0 = F.fin 3
    norm_num
  · intro i hi
    refine ⟨fallbackFrame st en i, ?_, ?_, fun _ => rfl, fun _ => rfl,
      fun _ => rfl, fun _ => rfl⟩
    · show ((List.range 61).map (fallbackFrame st en)).get? i = some (fallbackFrame st en i)
      rw [List.get?_map, List.get?_range hi]
      rfl
    · show F.fin ((i : ℝ) / 60 * 3.0) = F.fin ((i : ℝ) * (3 / 60))
      congr 1
      ring

/-- Witness for C3 at the concrete input start = end = the zero
configuration. -/
theorem c3_degenerate_move_fallback_witness :
    moveDist (fun _ => ⟨0, 0, 0, 0⟩) (fun _ => ⟨0, 0, 0, 0⟩) < 0.001 ∧
    linearFallbackExact (fun _ => ⟨0, 0, 0, 0⟩) (fun _ => ⟨0, 0, 0, 0⟩)
      (generateTimeOptimalTrajectory (fun _ _ => F.fin 0)
        (fun _ => ⟨0, 0, 0, 0⟩) (fun _ => ⟨0, 0, 0, 0⟩)) := by
  have h : moveDist (fun _ => (⟨0, 0, 0, 0⟩ : JointState))
      (fun _ => (⟨0, 0, 0, 0⟩ : JointState)) < 0.001 := by
    simp [moveDist, deltaq]
    norm_num
  exact ⟨h, c3_degenerate_move_fallback _ _ _ h⟩

/-! ### C5: the maximum-velocity curve -/

theorem mvcCodeStep_eq_min (tl b c : ℝ) (acc : F)
    (hacc : acc = F.pinf ∨ ∃ x : ℝ, acc = F.fin x ∧ 0 ≤ x) :
    mvcCodeStep tl b c acc = F.min acc (mvcJointMax tl b c) ∧
    (mvcCodeStep tl b c acc = F.pinf ∨
      ∃ x : ℝ, mvcCodeStep tl b c acc = F.fin x ∧ 0 ≤ x) := by
  have hmin0 : F.min acc (F.fin 0) = F.fin 0 := by
    rcases hacc with rfl | ⟨x, rfl, hx0⟩
    · rfl
    · show F.fin (Min.min x 0) = F.fin 0
      rw [min_eq_right hx0]
  have hminpinf : F.min acc F.pinf = acc := by
    rcases hacc with rfl | ⟨x, rfl, _⟩ <;> rfl
  unfold mvcCodeStep mvcJointMax
  by_cases hb : 0 < b
  · rw [if_pos hb, if_pos hb]
    by_cases hn : tl - c < 0
    · rw [if_pos hn, if_pos hn]
      exact ⟨hmin0.symm, Or.inr ⟨0, rfl, le_refl 0⟩⟩
    · rw [if_neg hn, if_neg hn]
      have hq : 0 ≤ (tl - c) / b := div_nonneg (le_of_not_lt hn) (le_of_lt hb)
      refine ⟨rfl, ?_⟩
      rcases hacc with rfl | ⟨x, rfl, hx0⟩
      · exact Or.inr ⟨(tl - c) / b, rfl, hq⟩
      · exact Or.inr ⟨Min.min x ((tl - c) / b), rfl, le_min hx0 hq⟩
  · by_cases hbn : b < 0
    · rw [if_neg hb, if_neg hb, if_pos hbn, if_pos hbn]
      by_cases hn : 0 < -tl - c
      · rw [if_pos hn, if_pos hn]
        exact ⟨hmin0.symm, Or.inr ⟨0, rfl, le_refl 0⟩⟩
      · rw [if_neg hn, if_neg hn]
        have hq : 0 ≤ (-tl - c) / b := by
          rw [div_nonneg_iff]
          exact Or.inr ⟨le_of_not_lt hn, le_of_lt hbn⟩
        refine ⟨rfl, ?_⟩
        rcases hacc with rfl | ⟨x, rfl, hx0⟩
        · exact Or.inr ⟨(-tl - c) / b, rfl, hq⟩
        · exact Or.inr ⟨Min.min x ((-tl - c) / b), rfl, le_min hx0 hq⟩
    · rw [if_neg hb, if_neg hb, if_neg hbn, if_neg hbn]
      exact ⟨hminpinf.symm, hacc⟩

theorem mvc_fold_eq (tl b c : Fin 6 → ℝ) :
    ∀ (L : List (Fin 6)) (acc : F),
      (acc = F.pinf ∨ ∃ x : ℝ, acc = F.fin x ∧ 0 ≤ x) →
      L.foldl (fun a i => mvcCodeStep (tl i) (b i) (c i) a) acc =
        L.foldl (fun a i => F.min a (mvcJointMax (tl i) (b i) (c i))) acc := by
  intro L
  induction L with
  | nil => intro acc _; rfl
  | cons hd tlr ih =>
    intro acc hacc
    obtain ⟨heq, hinv⟩ := mvcCodeStep_eq_min (tl hd) (b hd) (c hd) acc hacc
    simp only [List.foldl_cons]
    rw [← heq]
    exact ih _ hinv

/-- C5: at every grid point the velocity-limit curve equals the square root
of the clamped-to-nonnegative minimum, over the six joints, of the per-joint
maximum feasible squared path velocity under the static torque box (with the
`B>0`, `B<0` and `B≈0` cases of the constraint handled separately and an
infeasible joint contributing 0), and the curve is forced to 0 at both grid
endpoints `k = 0` and `k = N_GRID`. -/
theorem c5_velocity_limit_curve (st en : Fin 6 → JointState) (k : ℕ) :
    sdLimit st en k =
      (if k = 0 ∨ k = N_GRID then F.fin 0
       else F.sqrt (F.max (F.fin 0) (mvcSpecMin st en k))) := by
  unfold sdLimit
  by_cases hk : k = 0 ∨ k = N_GRID
  · rw [if_pos hk, if_pos hk]
  · rw [if_neg hk, if_neg hk]
    unfold sdLimitRaw maxSdSq mvcSpecMin
    congr 2
    exact mvc_fold_eq _ _ _ (List.finRange 6) F.pinf (Or.inl rfl)

/-! ### C9: the playback controller's Moving state -/

theorem chain'_le_getLast :
    ∀ (l : List F), List.Chain' F.Lt l →
      ∀ x ∈ l, ∀ y, l.getLast? = some y → x = y ∨ F.Lt x y := by
  intro l
  induction l with
  | nil => intro _ x hx; cases hx
  | cons a t ih =>
    intro hchain x hx y hy
    cases t with
    | nil =>
      have hxa : x = a := by simpa using hx
      have hya : a = y := by simpa using hy
      subst hxa
      exact Or.inl hya
    | cons b t2 =>
      rw [List.getLast?_cons_cons] at hy
      have hc := List.chain'_cons.mp hchain
      rcases List.mem_cons.mp hx with rfl | hx2
      · rcases ih hc.2 b (List.mem_cons_self b t2) y hy with rfl | hlt
        · exact Or.inr hc.1
        · exact Or.inr (F.lt_trans hc.1 hlt)
      · exact ih hc.2 x hx2 y hy

theorem ble_false_of_lt {t : F} {m : ℝ} (h : F.Lt t (F.fin m)) :
    F.ble (F.fin m) t = false := by
  cases t <;> simp_all [F.Lt, F.blt, F.ble]

/-- C9: in the Moving state, when the elapsed move time exceeds every sample
timestamp (in particular the last, the timestamps being strictly
increasing), the controller emits the held final sample and transitions to
Dwelling recording the dwell-start time; and in general the Moving state
only ever emits the first sample whose timestamp has reached the elapsed
time, or the held final sample. -/
theorem c9_moving_state_transition (traj : List Frame) (moveTime now : ℝ)
    (hne : traj ≠ [])
    (hchain : List.Chain' F.Lt (traj.map (fun f => f.time)))
    (hlast : ∀ l, traj.getLast? = some l → F.Lt l.time (F.fin moveTime)) :
    movingStateContract traj moveTime now := by
  have hie : traj.isEmpty = false := by
    simp [List.isEmpty_iff, hne]
  obtain ⟨lastF, hlastF⟩ : ∃ lf, traj.getLast? = some lf := by
    cases htr : traj.getLast? with
    | none => exact absurd (List.getLast?_eq_none_iff.mp htr) hne
    | some lf => exact ⟨lf, rfl⟩
  have hall : ∀ f ∈ traj, F.Lt f.time (F.fin moveTime) := by
    intro f hf
    have hmem : f.time ∈ traj.map (fun fr => fr.time) :=
      List.mem_map_of_mem _ hf
    have hmaplast : (traj.map (fun fr => fr.time)).getLast? = some lastF.time := by
      rw [List.getLast?_map, hlastF]
      rfl
    rcases chain'_le_getLast _ hchain f.time hmem lastF.time hmaplast with heq | hlt
    · rw [heq]
      exact hlast lastF hlastF
    · exact F.lt_trans hlt (hlast lastF hlastF)
  have hfind : traj.find? (fun f => F.ble (F.fin moveTime) f.time) = none := by
    apply List.find?_eq_none.mpr
    intro f hf
    rw [ble_false_of_lt (hall f hf)]
    simp
  constructor
  · simp only [movingStep, hie, Bool.false_eq_true, if_false, hfind]
  · intro mt f dw h
    simp only [movingStep, hie, Bool.false_eq_true, if_false] at h
    cases hf2 : traj.find? (fun fr => F.ble (F.fin mt) fr.time) with
    | none =>
      rw [hf2] at h
      simp only [Prod.mk.injEq] at h
      exact Or.inr ⟨h.1, h.2.symm⟩
    | some g =>
      rw [hf2] at h
      simp only [Prod.mk.injEq, Option.some.injEq] at h
      exact Or.inl ⟨congrArg some h.1, h.2.symm⟩

/-- Witness for C9 at a concrete one-sample trajectory with elapsed move
time 1 s past its unique timestamp 0 and clock reading 5. -/
theorem c9_moving_state_transition_witness :
    (([probeFrame] : List Frame) ≠ []) ∧
    List.Chain' F.Lt (([probeFrame] : List Frame).map (fun f => f.time)) ∧
    (∀ l, ([probeFrame] : List Frame).getLast? = some l →
      F.Lt l.time (F.fin 1)) ∧
    movingStateContract [probeFrame] 1 5 := by
  have h1 : ([probeFrame] : List Frame) ≠ [] := by simp
  have h2 : List.Chain' F.Lt (([probeFrame] : List Frame).map (fun f => f.time)) := by
    simp
  have h3 : ∀ l, ([probeFrame] : List Frame).getLast? = some l →
      F.Lt l.time (F.fin 1) := by
    intro l hl
    have hpl : probeFrame = l := by simpa using hl
    subst hpl
    show F.Lt (F.fin 0) (F.fin 1)
    rw [F.lt_fin_fin]
    norm_num
  exact ⟨h1, h2, h3, c9_moving_state_transition _ _ _ h1 h2 h3⟩

/-! ### The exact final angle of the solver path -/

/-- The last solver-path sample is taken at `s = N_GRID / N_GRID = 1`, so
its angles equal the end angles exactly. -/
theorem solver_last_sample_angle (fric : FricFun) (st en : Fin 6 → JointState)
    (j : Fin 6) :
    ((solverFrame fric st en (N_GRID - 1)).joints j).angle = (en j).angle := by
  show startq st j + (((N_GRID - 1 + 1 : ℕ) : ℝ) / (N_GRID : ℝ)) * deltaq st en j
    = (en j).angle
  simp only [startq, deltaq, N_GRID]
  norm_num

end RobotViz
